import Mathlib

/-!
Job Tracker — verification of the Job List Controller.

Shallow embedding of `src/script.js`. The controller keeps an in-memory
list of job records (`state.jobs`), each holding a reference to its DOM
element and a status string, together with the current tab
(`state.currentTab`) and a handful of optional display elements
(dashboard cards, the visible-count message, the lazily created
empty-state block).

DOM elements are modelled by their mutable state relevant to the script:
a unique identity (`id`, standing for JS reference identity), the
`dataset.status` attribute, the `style.display` value, and the optional
status-badge button reachable as `element.children[2].querySelector("button")`
(`badge = none` models either a missing third child block or a third child
without a button). Attachment of job elements to the `.all-job` container
is modelled by the list `attachedIds`; `element.remove()` erases the id.
Optional display elements are `Option String` holding their text content
(or, for the empty-state block, its `style.display`); `none` means the
element does not exist, in which case the corresponding write is skipped,
exactly as the null-guards in the script do.
-/

namespace JobTracker

/-- The status-badge button inside a job card: its `textContent` and
`className`, the two properties `updateJobStatus` writes. -/
structure Badge where
  textContent : String
  className : String
  deriving Repr, DecidableEq

/-- A job card DOM element, reduced to the state the script reads and
writes: identity, `dataset.status`, `style.display`, and the optional
badge button found at `children[2].querySelector("button")`. -/
structure JobElement where
  id : Nat
  datasetStatus : String
  display : String
  badge : Option Badge
  deriving Repr, DecidableEq

/-- One entry of `state.jobs`: `{ element, status }`. -/
structure Job where
  element : JobElement
  status : String
  deriving Repr, DecidableEq

/-- The whole mutable state of the controller: `state` plus the parts of
the DOM the script mutates. -/
@[ext]
structure AppState where
  currentTab : String
  jobs : List Job
  attachedIds : List Nat
  emptyMsg : Option String
  dashTotal : Option String
  dashInterview : Option String
  dashRejected : Option String
  countMsg : Option String
  deriving Repr, DecidableEq

/-- Number of jobs with the given status — the per-status tally computed
by the `forEach` loop of `updateDashboardCounts`. -/
def countStatus (jobs : List Job) (st : String) : Nat :=
  (jobs.filter (fun job => job.status == st)).length

/-- Embeds `updateDashboardCounts`: recompute `Total` / `Interview` / `Rejected`
from the collection and write each into its display element if present. -/
def updateDashboardCounts (s : AppState) : AppState :=
  let total := s.jobs.length
  let interview := countStatus s.jobs "Interview"
  let rejected := countStatus s.jobs "Rejected"
  { s with
    dashTotal := s.dashTotal.map (fun _ => toString total)
    dashInterview := s.dashInterview.map (fun _ => toString interview)
    dashRejected := s.dashRejected.map (fun _ => toString rejected) }

/-- The visibility condition of `renderJobs`:
`(state.currentTab === "All" && job.status === "none") || state.currentTab === job.status`. -/
def isVisible (tab status : String) : Bool :=
  (tab == "All" && status == "none") || tab == status

/-- The per-job effect of `renderJobs`:
`job.element.style.display = isVisible ? "block" : "none"`. -/
def renderJob (tab : String) (job : Job) : Job :=
  { job with element := { job.element with
      display := if isVisible tab job.status then "block" else "none" } }

/-- Embeds `toggleEmptyState`: when nothing is visible, build the `.no-jobs-msg`
block once if absent and show it (`display = "flex"`); otherwise hide it
if it exists. -/
def toggleEmptyState (s : AppState) (visibleCount : Nat) : AppState :=
  if visibleCount == 0 then
    { s with emptyMsg := some "flex" }
  else
    match s.emptyMsg with
    | some _ => { s with emptyMsg := some "none" }
    | none => s

/-- The `visibleCount` accumulated by the `forEach` loop of `renderJobs`. -/
def visibleCountOf (tab : String) (jobs : List Job) : Nat :=
  (jobs.filter (fun job => isVisible tab job.status)).length

/-- Embeds `renderJobs`: set each job element's display from the visibility rule,
write `"{count} jobs"` into the count message if it exists, then toggle
the empty state. -/
def renderJobs (s : AppState) : AppState :=
  let visibleCount := visibleCountOf s.currentTab s.jobs
  toggleEmptyState
    { s with
      jobs := s.jobs.map (renderJob s.currentTab)
      countMsg := s.countMsg.map (fun _ => toString visibleCount ++ " jobs") }
    visibleCount

/-- Embeds `updateUI`: `updateDashboardCounts(); renderJobs();`. -/
def updateUI (s : AppState) : AppState :=
  renderJobs (updateDashboardCounts s)

/-- Embeds `deleteJob(index)`: detach the element, splice the record out, then
recompute the UI. In the script the index is always valid at every call
site (it comes from a successful `findIndex`); on an out-of-range index
the model leaves the state unchanged. -/
def deleteJob (s : AppState) (index : Nat) : AppState :=
  match s.jobs[index]? with
  | none => s
  | some job =>
    updateUI { s with
      attachedIds := s.attachedIds.erase job.element.id
      jobs := s.jobs.eraseIdx index }

/-- Embeds `newStatusLabel === "interview" ? "Interview" : "Rejected"`. -/
def newStatusOf (newStatusLabel : String) : String :=
  if newStatusLabel == "interview" then "Interview" else "Rejected"

/-- The record-and-element mutation performed by `updateJobStatus`: set
`job.status`, mirror it onto `element.dataset.status`, and when the badge
button exists rewrite its label and class. -/
def applyStatus (job : Job) (newStatus : String) : Job :=
  let badge := match job.element.badge with
    | some _ => some
        { textContent := newStatus
          className :=
            if newStatus == "Interview" then
              "btn btn-soft bg-[#10B981] text-white border-none w-max px-4"
            else
              "btn btn-soft bg-[#EF4444] text-white border-none w-max px-4" }
    | none => none
  { job with
    status := newStatus
    element := { job.element with datasetStatus := newStatus, badge := badge } }

/-- Embeds `updateJobStatus(index, newStatusLabel)`: mutate the record and its
element, then recompute the UI. As with `deleteJob`, call sites guarantee
a valid index; the model is the identity on an out-of-range one. -/
def updateJobStatus (s : AppState) (index : Nat) (newStatusLabel : String) : AppState :=
  match s.jobs[index]? with
  | none => s
  | some job =>
    updateUI { s with
      jobs := s.jobs.set index (applyStatus job (newStatusOf newStatusLabel)) }

/-- A click event inside the job container, as `handleJobAction` observes
it: the identity of the nearest enclosing `.job-item` (if any), whether
the target sits inside a delete affordance (`closest(".fa-trash")` or
`closest("div.border.rounded-full")`), whether the target is a `BUTTON`,
and the target's text content. -/
structure JobClickEvent where
  targetJobId : Option Nat
  isDelete : Bool
  isButton : Bool
  buttonText : String

/-- Embeds `handleJobAction`: resolve the enclosing job element, find its index
by element identity, then dispatch — delete first, else a status button. -/
def handleJobAction (s : AppState) (e : JobClickEvent) : AppState :=
  match e.targetJobId with
  | none => s
  | some jobElId =>
    match s.jobs.findIdx? (fun j => j.element.id == jobElId) with
    | none => s
    | some jobIndex =>
      if e.isDelete then
        deleteJob s jobIndex
      else if e.isButton then
        let btnText := e.buttonText.trim.toLower
        if btnText == "interview" || btnText == "rejected" then
          updateJobStatus s jobIndex btnText
        else s
      else s

/-- A click event on the tab bar, as `handleTabClick` observes it:
whether the target is a `BUTTON`, and its text content. -/
structure TabClickEvent where
  isButton : Bool
  label : String

/-- Embeds `handleTabClick`: ignore non-button targets; otherwise set
`state.currentTab` to the trimmed label and re-render only the job list
(the tab-button class churn has no observable effect on this state). -/
def handleTabClick (s : AppState) (e : TabClickEvent) : AppState :=
  if e.isButton then
    renderJobs { s with currentTab := e.label.trim }
  else s

/-- The record `init` builds for each discovered `.job-item`:
status `"none"`, and `el.dataset.status = "none"`. -/
def initJob (el : JobElement) : Job :=
  { element := { el with datasetStatus := "none" }, status := "none" }

/-- Embeds `init`: collect the job elements into `state.jobs` with status
`"none"`, then `updateUI()`. The discovered elements are attached to the
container; the optional display elements are whatever the page provides. -/
def init (elems : List JobElement)
    (dashTotal dashInterview dashRejected countMsg : Option String) : AppState :=
  updateUI
    { currentTab := "All"
      jobs := elems.map initJob
      attachedIds := elems.map (fun el => el.id)
      emptyMsg := none
      dashTotal := dashTotal
      dashInterview := dashInterview
      dashRejected := dashRejected
      countMsg := countMsg }

/-- One user-driven operation on the controller state: a tab-bar click,
a job-container click, or (as the spec's §4.2/§4.3 operations) a direct
status transition or deletion. -/
inductive Step : AppState → AppState → Prop where
  | tab (s : AppState) (e : TabClickEvent) : Step s (handleTabClick s e)
  | click (s : AppState) (e : JobClickEvent) : Step s (handleJobAction s e)
  | setStatus (s : AppState) (i : Nat) (lbl : String) : Step s (updateJobStatus s i lbl)
  | del (s : AppState) (i : Nat) : Step s (deleteJob s i)

/-- States reachable from `s0` by any sequence of operations. -/
inductive Reachable (s0 : AppState) : AppState → Prop where
  | refl : Reachable s0 s0
  | step {s t : AppState} : Reachable s0 s → Step s t → Reachable s0 t

/-- The element identities of the records, in collection order. -/
def elemIds (s : AppState) : List Nat :=
  s.jobs.map (fun j => j.element.id)

/-- The synchronization invariant of §3/§7: the job elements attached to
the container are exactly the elements of the records, one each. -/
def Synced (s : AppState) : Prop :=
  s.attachedIds = elemIds s ∧ (elemIds s).Nodup

/-! ## Basic lemmas about the embedded operations -/

@[simp]
theorem renderJob_status (t : String) (j : Job) : (renderJob t j).status = j.status := rfl

@[simp]
theorem renderJob_id (t : String) (j : Job) : (renderJob t j).element.id = j.element.id := rfl

@[simp]
theorem renderJob_datasetStatus (t : String) (j : Job) :
    (renderJob t j).element.datasetStatus = j.element.datasetStatus := rfl

@[simp]
theorem renderJob_badge (t : String) (j : Job) :
    (renderJob t j).element.badge = j.element.badge := rfl

@[simp]
theorem renderJob_display (t : String) (j : Job) :
    (renderJob t j).element.display = if isVisible t j.status then "block" else "none" := rfl

theorem renderJob_renderJob (t t' : String) (j : Job) :
    renderJob t (renderJob t' j) = renderJob t j := rfl

theorem map_renderJob_map_renderJob (t t' : String) (l : List Job) :
    (l.map (renderJob t')).map (renderJob t) = l.map (renderJob t) := by
  rw [List.map_map]
  exact List.map_congr_left (fun j _ => renderJob_renderJob t t' j)

theorem countStatus_nil (st : String) : countStatus [] st = 0 := rfl

theorem countStatus_cons (j : Job) (l : List Job) (st : String) :
    countStatus (j :: l) st = countStatus l st + (if j.status == st then 1 else 0) := by
  simp only [countStatus, List.filter_cons]
  split <;> simp [Nat.add_comm]

theorem countStatus_map_renderJob (t : String) (l : List Job) (st : String) :
    countStatus (l.map (renderJob t)) st = countStatus l st := by
  induction l with
  | nil => rfl
  | cons j l ih => simp [countStatus_cons, ih]

theorem visibleCountOf_cons (t : String) (j : Job) (l : List Job) :
    visibleCountOf t (j :: l) = visibleCountOf t l + (if isVisible t j.status then 1 else 0) := by
  simp only [visibleCountOf, List.filter_cons]
  split <;> simp [Nat.add_comm]

theorem visibleCountOf_map_renderJob (t t' : String) (l : List Job) :
    visibleCountOf t (l.map (renderJob t')) = visibleCountOf t l := by
  induction l with
  | nil => rfl
  | cons j l ih => simp [visibleCountOf_cons, ih]

theorem statuses_map_renderJob (t : String) (l : List Job) :
    (l.map (renderJob t)).map (fun j => j.status) = l.map (fun j => j.status) := by
  rw [List.map_map]
  exact List.map_congr_left (fun j _ => rfl)

theorem ids_map_renderJob (t : String) (l : List Job) :
    (l.map (renderJob t)).map (fun j => j.element.id) = l.map (fun j => j.element.id) := by
  rw [List.map_map]
  exact List.map_congr_left (fun j _ => rfl)

/-- Collapsing two consecutive writes to the same optional display. -/
theorem option_write_write (x : Option String) (v w : String) :
    (x.map (fun _ => v)).map (fun _ => w) = x.map (fun _ => w) := by
  cases x <;> rfl

/-! ## List helper lemmas -/

theorem map_eraseIdx (l : List α) (i : Nat) (f : α → β) :
    (l.eraseIdx i).map f = (l.map f).eraseIdx i := by
  induction l generalizing i with
  | nil => simp
  | cons a l ih =>
    cases i with
    | zero => rfl
    | succ i => simp [List.eraseIdx_cons_succ, ih]

theorem set_getElem?_self (l : List α) (i : Nat) (a : α) (h : l[i]? = some a) :
    l.set i a = l := by
  induction l generalizing i with
  | nil => simp at h
  | cons b l ih =>
    cases i with
    | zero =>
      simp only [List.getElem?_cons_zero, Option.some.injEq] at h
      simp [h]
    | succ i =>
      simp only [List.getElem?_cons_succ] at h
      simp [List.set_cons_succ, ih i h]

theorem erase_of_nodup_getElem? (l : List Nat) (i : Nat) (a : Nat)
    (hn : l.Nodup) (h : l[i]? = some a) : l.erase a = l.eraseIdx i := by
  induction l generalizing i with
  | nil => simp at h
  | cons b l ih =>
    cases i with
    | zero =>
      simp only [List.getElem?_cons_zero, Option.some.injEq] at h
      subst h
      simp [List.erase_cons_head]
    | succ i =>
      simp only [List.getElem?_cons_succ] at h
      have hmem : a ∈ l := List.getElem?_mem h
      have hb : ¬ (b == a) = true := by
        simp only [beq_iff_eq]
        intro hba
        exact (List.nodup_cons.mp hn).1 (hba ▸ hmem)
      rw [List.erase_cons_tail hb, List.eraseIdx_cons_succ,
        ih i (List.nodup_cons.mp hn).2 h]

theorem countStatus_set (l : List Job) (i : Nat) (j a : Job) (st : String)
    (h : l[i]? = some j) :
    countStatus (l.set i a) st + (if j.status == st then 1 else 0)
      = countStatus l st + (if a.status == st then 1 else 0) := by
  induction l generalizing i with
  | nil => simp at h
  | cons b l ih =>
    cases i with
    | zero =>
      simp only [List.getElem?_cons_zero, Option.some.injEq] at h
      subst h
      simp only [List.set_cons_zero, countStatus_cons]
      omega
    | succ i =>
      simp only [List.getElem?_cons_succ] at h
      simp only [List.set_cons_succ, countStatus_cons]
      have := ih i h
      omega

/-! ## Closed forms for the render / update pipeline -/

theorem toggleEmptyState_eq (s : AppState) (n : Nat) :
    toggleEmptyState s n
      = { s with emptyMsg :=
            if n == 0 then some "flex" else s.emptyMsg.map (fun _ => "none") } := by
  unfold toggleEmptyState
  split
  · next h => simp [h]
  · next h =>
    cases hm : s.emptyMsg with
    | none =>
      simp only [hm, h, Option.map_none, Bool.false_eq_true, if_false]
      exact AppState.ext rfl rfl rfl hm rfl rfl rfl rfl
    | some v => simp [h, hm]

theorem renderJobs_eq (s : AppState) :
    renderJobs s
      = { s with
          jobs := s.jobs.map (renderJob s.currentTab)
          countMsg := s.countMsg.map
            (fun _ => toString (visibleCountOf s.currentTab s.jobs) ++ " jobs")
          emptyMsg :=
            if visibleCountOf s.currentTab s.jobs == 0 then some "flex"
            else s.emptyMsg.map (fun _ => "none") } := by
  unfold renderJobs
  rw [toggleEmptyState_eq]

theorem updateUI_eq (s : AppState) :
    updateUI s
      = { s with
          jobs := s.jobs.map (renderJob s.currentTab)
          dashTotal := s.dashTotal.map (fun _ => toString s.jobs.length)
          dashInterview := s.dashInterview.map
            (fun _ => toString (countStatus s.jobs "Interview"))
          dashRejected := s.dashRejected.map
            (fun _ => toString (countStatus s.jobs "Rejected"))
          countMsg := s.countMsg.map
            (fun _ => toString (visibleCountOf s.currentTab s.jobs) ++ " jobs")
          emptyMsg :=
            if visibleCountOf s.currentTab s.jobs == 0 then some "flex"
            else s.emptyMsg.map (fun _ => "none") } := by
  unfold updateUI updateDashboardCounts
  rw [renderJobs_eq]

theorem updateUI_idem (s : AppState) : updateUI (updateUI s) = updateUI s := by
  simp only [updateUI_eq]
  simp only [map_renderJob_map_renderJob, visibleCountOf_map_renderJob,
    countStatus_map_renderJob, List.length_map, option_write_write]
  split
  · rfl
  · rw [option_write_write]

@[simp]
theorem applyStatus_status (j : Job) (ns : String) : (applyStatus j ns).status = ns := rfl

@[simp]
theorem applyStatus_id (j : Job) (ns : String) :
    (applyStatus j ns).element.id = j.element.id := rfl

@[simp]
theorem applyStatus_datasetStatus (j : Job) (ns : String) :
    (applyStatus j ns).element.datasetStatus = ns := rfl

@[simp]
theorem applyStatus_display (j : Job) (ns : String) :
    (applyStatus j ns).element.display = j.element.display := rfl

theorem updateJobStatus_eq (s : AppState) (i : Nat) (lbl : String) (job : Job)
    (h : s.jobs[i]? = some job) :
    updateJobStatus s i lbl
      = updateUI { s with jobs := s.jobs.set i (applyStatus job (newStatusOf lbl)) } := by
  unfold updateJobStatus
  rw [h]

theorem deleteJob_eq (s : AppState) (i : Nat) (job : Job)
    (h : s.jobs[i]? = some job) :
    deleteJob s i
      = updateUI { s with
          attachedIds := s.attachedIds.erase job.element.id
          jobs := s.jobs.eraseIdx i } := by
  unfold deleteJob
  rw [h]

/-! ## Preservation of the synchronization invariant (C2) -/

theorem elemIds_updateUI (s : AppState) : elemIds (updateUI s) = elemIds s := by
  simp only [elemIds, updateUI_eq]
  exact ids_map_renderJob ..

theorem attachedIds_updateUI (s : AppState) : (updateUI s).attachedIds = s.attachedIds := by
  rw [updateUI_eq]

theorem synced_updateUI (s : AppState) (h : Synced s) : Synced (updateUI s) := by
  unfold Synced at h ⊢
  rw [elemIds_updateUI, attachedIds_updateUI]
  exact h

theorem elemIds_renderJobs (s : AppState) : elemIds (renderJobs s) = elemIds s := by
  simp only [elemIds, renderJobs_eq]
  exact ids_map_renderJob ..

theorem synced_renderJobs (s : AppState) (h : Synced s) : Synced (renderJobs s) := by
  unfold Synced at h ⊢
  rw [elemIds_renderJobs, renderJobs_eq]
  exact h

theorem synced_handleTabClick (s : AppState) (e : TabClickEvent) (h : Synced s) :
    Synced (handleTabClick s e) := by
  unfold handleTabClick
  split
  · exact synced_renderJobs _ h
  · exact h

theorem synced_updateJobStatus (s : AppState) (i : Nat) (lbl : String) (h : Synced s) :
    Synced (updateJobStatus s i lbl) := by
  unfold updateJobStatus
  cases hget : s.jobs[i]? with
  | none => exact h
  | some job =>
    apply synced_updateUI
    unfold Synced at h ⊢
    have hids : elemIds { s with jobs := s.jobs.set i (applyStatus job (newStatusOf lbl)) }
        = elemIds s := by
      simp only [elemIds]
      rw [List.map_set]
      exact set_getElem?_self _ i _ (by
        rw [List.getElem?_map, hget]
        rfl)
    rw [hids]
    exact h

theorem synced_deleteJob (s : AppState) (i : Nat) (h : Synced s) :
    Synced (deleteJob s i) := by
  unfold deleteJob
  cases hget : s.jobs[i]? with
  | none => exact h
  | some job =>
    apply synced_updateUI
    obtain ⟨ha, hn⟩ := h
    have hi : (elemIds s)[i]? = some job.element.id := by
      simp only [elemIds]
      rw [List.getElem?_map, hget]
      rfl
    constructor
    · show s.attachedIds.erase job.element.id = (s.jobs.eraseIdx i).map _
      rw [ha, map_eraseIdx]
      exact erase_of_nodup_getElem? _ i _ hn hi
    · show ((s.jobs.eraseIdx i).map _).Nodup
      rw [map_eraseIdx]
      exact (List.eraseIdx_sublist (elemIds s) i).nodup hn

theorem synced_handleJobAction (s : AppState) (e : JobClickEvent) (h : Synced s) :
    Synced (handleJobAction s e) := by
  unfold handleJobAction
  split
  · exact h
  · split
    · exact h
    · split
      · exact synced_deleteJob _ _ h
      · split
        · dsimp only
          split
          · exact synced_updateJobStatus _ _ _ h
          · exact h
        · exact h

theorem synced_step {s t : AppState} (hst : Step s t) (h : Synced s) : Synced t := by
  cases hst with
  | tab e => exact synced_handleTabClick _ e h
  | click e => exact synced_handleJobAction _ e h
  | setStatus i lbl => exact synced_updateJobStatus _ i lbl h
  | del i => exact synced_deleteJob _ i h

/-- C2:  Every mutation path (status transition, deletion, and the two
click handlers that invoke them) keeps the record collection and the
attached job elements synchronized: from any synchronized state, after any
sequence of operations each record still corresponds to exactly one live
element attached to the container, and vice versa. -/
theorem sync_invariant (s0 s : AppState) (h0 : Synced s0) (hr : Reachable s0 s) :
    Synced s := by
  induction hr with
  | refl => exact h0
  | step _ hst ih => exact synced_step hst ih

/-! ## Further helper lemmas -/

theorem getElem?_set_of_getElem? (l : List α) (i : Nat) (a b : α) (h : l[i]? = some a) :
    (l.set i b)[i]? = some b := by
  induction l generalizing i with
  | nil => simp at h
  | cons c l ih =>
    cases i with
    | zero => simp
    | succ i =>
      simp only [List.getElem?_cons_succ] at h
      simpa [List.set_cons_succ] using ih i h

theorem lt_length_of_getElem? (l : List α) (i : Nat) (a : α) (h : l[i]? = some a) :
    i < l.length := by
  by_contra hc
  rw [List.getElem?_eq_none (Nat.le_of_not_lt hc)] at h
  exact Option.noConfusion h

theorem display_block_iff (b : Bool) :
    (if b then "block" else "none") = "block" ↔ b = true := by
  cases b <;> simp

theorem isVisible_iff (tab st : String) :
    isVisible tab st = true ↔ ((tab = "All" ∧ st = "none") ∨ tab = st) := by
  simp [isVisible]

theorem filter_block_length (t : String) (l : List Job) :
    ((l.map (renderJob t)).filter (fun j => j.element.display == "block")).length
      = visibleCountOf t l := by
  induction l with
  | nil => rfl
  | cons j l ih =>
    simp only [List.map_cons, List.filter_cons, visibleCountOf_cons, renderJob_display]
    by_cases hv : isVisible t j.status
    · simp [hv, ih, Nat.add_comm]
    · simp [hv, ih]

/-! ## Concrete states used by the witnesses -/

/-- A job element whose badge button is present (well-formed markup). -/
def elemA : JobElement :=
  { id := 10
    datasetStatus := "none"
    display := "block"
    badge := some { textContent := "Not Applied", className := "btn btn-soft" } }

/-- A job element with no badge button (malformed markup). -/
def elemB : JobElement :=
  { id := 11, datasetStatus := "Interview", display := "block", badge := none }

def wJobA : Job := { element := elemA, status := "none" }

def wJobB : Job := { element := elemB, status := "Interview" }

def wState : AppState :=
  { currentTab := "All"
    jobs := [wJobA, wJobB]
    attachedIds := [10, 11]
    emptyMsg := none
    dashTotal := some "2"
    dashInterview := some "1"
    dashRejected := some "0"
    countMsg := some "1 jobs" }

/-! ## The claims -/

/-- The property claimed by C1, at state `s`, index `i`, record `job`. -/
def VisibilityProp (s : AppState) (i : Nat) (job : Job) : Prop :=
  (∃ job', (renderJobs s).jobs[i]? = some job'
      ∧ job'.status = job.status
      ∧ (job'.element.display = "block"
          ↔ ((s.currentTab = "All" ∧ job.status = "none") ∨ s.currentTab = job.status)))
  ∧ (renderJobs s).countMsg
      = s.countMsg.map (fun _ =>
          toString (((renderJobs s).jobs.filter
            (fun j => j.element.display == "block")).length) ++ " jobs")

/-- C1:  After `renderJobs`, a record's element is visible
(`display = "block"`) iff (the current tab is `All` and its status is
`none`) or the current tab equals its status; and the displayed count
message shows exactly the number of visible records. -/
theorem renderJobs_visibility (s : AppState) (i : Nat) (job : Job)
    (hget : s.jobs[i]? = some job) : VisibilityProp s i job := by
  constructor
  · refine ⟨renderJob s.currentTab job, ?_, rfl, ?_⟩
    · rw [renderJobs_eq]
      show (s.jobs.map (renderJob s.currentTab))[i]? = _
      rw [List.getElem?_map, hget]
      rfl
    · rw [renderJob_display, display_block_iff, isVisible_iff]
  · simp only [renderJobs_eq]
    rw [filter_block_length]

/-- Witness for C1 at a concrete state and index. -/
theorem renderJobs_visibility_witness :
    wState.jobs[0]? = some wJobA ∧ VisibilityProp wState 0 wJobA :=
  ⟨rfl, renderJobs_visibility wState 0 wJobA rfl⟩

/-- Witness for C2: a synchronized concrete state, and synchronization
after one reachable deletion step. -/
theorem sync_invariant_witness :
    Synced wState ∧ Synced (deleteJob wState 0) :=
  ⟨⟨rfl, by decide⟩,
    sync_invariant wState (deleteJob wState 0) ⟨rfl, by decide⟩
      (Reachable.step Reachable.refl (Step.del wState 0))⟩

/-- The per-call effect of `updateJobStatus(i, "interview")` claimed by C3,
amended: the Interview count grows by one exactly when the record was not
already `Interview` (when it was, all counts are unchanged). -/
def InterviewTransitionProp (s : AppState) (i : Nat) (job : Job) : Prop :=
  (∃ job', (updateJobStatus s i "interview").jobs[i]? = some job'
      ∧ job'.status = "Interview" ∧ job'.element.datasetStatus = "Interview")
  ∧ (job.status ≠ "Interview" →
      countStatus (updateJobStatus s i "interview").jobs "Interview"
        = countStatus s.jobs "Interview" + 1)
  ∧ (job.status = "Interview" →
      countStatus (updateJobStatus s i "interview").jobs "Interview"
        = countStatus s.jobs "Interview")
  ∧ (job.status = "Rejected" →
      countStatus (updateJobStatus s i "interview").jobs "Rejected" + 1
        = countStatus s.jobs "Rejected")
  ∧ (updateJobStatus s i "interview").dashInterview
      = s.dashInterview.map (fun _ =>
          toString (countStatus (updateJobStatus s i "interview").jobs "Interview"))

/-- C3 (amended):  After `updateJobStatus(i, "interview")` the record
has status `Interview` and its element's status tag says so; the
`Interview` count increases by exactly one provided the record was not
already `Interview` (unchanged if it was), the count of a previously held
`Rejected` status decreases by one, and the dashboard Interview display
(when present) shows the recomputed count. -/
theorem updateJobStatus_interview_spec (s : AppState) (i : Nat) (job : Job)
    (hget : s.jobs[i]? = some job) : InterviewTransitionProp s i job := by
  have heq := updateJobStatus_eq s i "interview" job hget
  have hcount : ∀ st, countStatus (updateJobStatus s i "interview").jobs st
      = countStatus (s.jobs.set i (applyStatus job (newStatusOf "interview"))) st := by
    intro st
    rw [heq, updateUI_eq]
    exact countStatus_map_renderJob ..
  have hset := fun st => countStatus_set s.jobs i job
    (applyStatus job (newStatusOf "interview")) st hget
  refine ⟨?_, ?_, ?_, ?_, ?_⟩
  · refine ⟨renderJob s.currentTab (applyStatus job (newStatusOf "interview")), ?_, rfl, rfl⟩
    rw [heq, updateUI_eq]
    show ((s.jobs.set i (applyStatus job (newStatusOf "interview"))).map
      (renderJob s.currentTab))[i]? = _
    rw [List.getElem?_map, getElem?_set_of_getElem? _ _ _ _ hget]
    rfl
  · intro hprev
    have hb : (job.status == "Interview") = false := beq_eq_false_iff_ne.mpr hprev
    have := hset "Interview"
    rw [hcount "Interview"]
    simp [applyStatus_status, hb,
      show (newStatusOf "interview" == "Interview") = true from rfl] at this
    omega
  · intro hprev
    have := hset "Interview"
    rw [hcount "Interview"]
    simp [applyStatus_status, hprev,
      show (newStatusOf "interview" == "Interview") = true from rfl] at this
    omega
  · intro hprev
    have := hset "Rejected"
    rw [hcount "Rejected"]
    simp [applyStatus_status, hprev,
      show (newStatusOf "interview" == "Rejected") = false from rfl] at this
    omega
  · rw [hcount "Interview", heq, updateUI_eq]

/-- A freshly initialized two-job page. -/
def cState0 : AppState := init [elemA, elemB] (some "") (some "") (some "") (some "")

/-- State `cState0` after job 1 was already marked `Interview`. -/
def cState : AppState := updateJobStatus cState0 1 "interview"

/-- Counterexample to C3 as stated: marking a job `Interview` that is
already `Interview` leaves the Interview count unchanged, so the count
does not increase by exactly one on every call. -/
theorem interview_count_counterexample :
    ¬ (countStatus (updateJobStatus cState 1 "interview").jobs "Interview"
        = countStatus cState.jobs "Interview" + 1) := by decide

/-- Witness for the amended C3 at a concrete state and index. -/
theorem updateJobStatus_interview_spec_witness :
    wState.jobs[0]? = some wJobA ∧ InterviewTransitionProp wState 0 wJobA :=
  ⟨rfl, updateJobStatus_interview_spec wState 0 wJobA rfl⟩

/-- The deletion effect claimed by C4, at state `s`, index `i`, record `job`. -/
def DeleteProp (s : AppState) (i : Nat) (job : Job) : Prop :=
  (deleteJob s i).jobs.length + 1 = s.jobs.length
  ∧ job.element.id ∉ (deleteJob s i).attachedIds
  ∧ (deleteJob s i).jobs.map (fun j => (j.element.id, j.status))
      = (s.jobs.eraseIdx i).map (fun j => (j.element.id, j.status))

/-- C4:  `deleteJob(i)` on a valid index of a synchronized state
removes exactly one record: the collection shrinks by one, the deleted
record's element is no longer attached, and the surviving records — their
identities and statuses, in order — are exactly the old list with index
`i` erased (later records shifted down by one). -/
theorem deleteJob_removes_one (s : AppState) (i : Nat) (job : Job)
    (hget : s.jobs[i]? = some job) (hs : Synced s) : DeleteProp s i job := by
  have heq := deleteJob_eq s i job hget
  have hlen : i < s.jobs.length := lt_length_of_getElem? _ _ _ hget
  refine ⟨?_, ?_, ?_⟩
  · rw [heq, updateUI_eq]
    show ((s.jobs.eraseIdx i).map _).length + 1 = _
    rw [List.length_map]
    exact List.length_eraseIdx_add_one hlen
  · rw [heq, attachedIds_updateUI]
    show job.element.id ∉ s.attachedIds.erase job.element.id
    rw [hs.1]
    exact hs.2.not_mem_erase
  · rw [heq, updateUI_eq]
    show ((s.jobs.eraseIdx i).map (renderJob s.currentTab)).map _ = _
    rw [List.map_map]
    exact List.map_congr_left (fun j _ => rfl)

/-- Witness for C4 at a concrete synchronized state. -/
theorem deleteJob_removes_one_witness :
    wState.jobs[0]? = some wJobA ∧ Synced wState ∧ DeleteProp wState 0 wJobA :=
  ⟨rfl, ⟨rfl, by decide⟩, deleteJob_removes_one wState 0 wJobA rfl ⟨rfl, by decide⟩⟩

/-- The dispatch behaviour claimed by C5, at state `s` and event `e`. -/
def DispatchProp (s : AppState) (e : JobClickEvent) : Prop :=
  (e.targetJobId = none → handleJobAction s e = s)
  ∧ (∀ tid, e.targetJobId = some tid →
      s.jobs.findIdx? (fun j => j.element.id == tid) = none →
      handleJobAction s e = s)
  ∧ (∀ tid i, e.targetJobId = some tid →
      s.jobs.findIdx? (fun j => j.element.id == tid) = some i →
      e.isDelete = true →
      handleJobAction s e = deleteJob s i)
  ∧ (∀ tid i, e.targetJobId = some tid →
      s.jobs.findIdx? (fun j => j.element.id == tid) = some i →
      e.isDelete = false → e.isButton = true →
      (e.buttonText.trim.toLower = "interview" ∨ e.buttonText.trim.toLower = "rejected") →
      handleJobAction s e = updateJobStatus s i (e.buttonText.trim.toLower))
  ∧ (∀ tid i, e.targetJobId = some tid →
      s.jobs.findIdx? (fun j => j.element.id == tid) = some i →
      e.isDelete = false →
      (e.isButton = false ∨ (e.buttonText.trim.toLower ≠ "interview"
          ∧ e.buttonText.trim.toLower ≠ "rejected")) →
      handleJobAction s e = s)

/-- C5:  `handleJobAction` is a no-op when the click is outside every
job entry or the enclosing entry has no record (index resolved by
element-identity lookup at dispatch time); a delete-affordance click
deletes and takes priority over any status button; otherwise a status
transition happens exactly for a button labelled (trimmed, lowercased)
`"interview"` or `"rejected"`. -/
theorem handleJobAction_dispatch (s : AppState) (e : JobClickEvent) :
    DispatchProp s e := by
  refine ⟨?_, ?_, ?_, ?_, ?_⟩
  · intro h
    simp only [handleJobAction, h]
  · intro tid h hf
    simp only [handleJobAction, h, hf]
  · intro tid i h hf hd
    simp [handleJobAction, h, hf, hd]
  · intro tid i h hf hd hb hlbl
    rcases hlbl with hl | hl <;>
      simp [handleJobAction, h, hf, hd, hb, hl]
  · intro tid i h hf hd hnot
    rcases hnot with hb | ⟨hn1, hn2⟩
    · simp [handleJobAction, h, hf, hd, hb]
    · cases hb : e.isButton <;>
        simp [handleJobAction, h, hf, hd, hb, beq_iff_eq, hn1, hn2]

/-- A click on job element 11's delete affordance; the target is also a
button labelled "Interview", which must be ignored in favour of deletion. -/
def wEventDelete : JobClickEvent :=
  { targetJobId := some 11, isDelete := true, isButton := true, buttonText := "Interview" }

/-- Witness for C5: on a concrete state, the delete branch fires for a
click whose target would also match a status control. -/
theorem handleJobAction_dispatch_witness :
    handleJobAction wState wEventDelete = deleteJob wState 1 :=
  (handleJobAction_dispatch wState wEventDelete).2.2.1 11 1 rfl (by decide) rfl

/-- Re-applying `applyStatus` with the same target status to an
already-updated, re-rendered job changes nothing. -/
theorem applyStatus_twice (t : String) (j : Job) (ns : String) :
    applyStatus (renderJob t (applyStatus j ns)) ns = renderJob t (applyStatus j ns) := by
  cases hb : j.element.badge <;> simp [applyStatus, renderJob, hb]

/-- C6:  `updateJobStatus` is idempotent: on a valid index and a status
label `"interview"` or `"rejected"`, calling it twice in a row leaves
exactly the state of calling it once (records, element tags, badge,
dashboard displays, count message, empty state, visibility). -/
theorem updateJobStatus_idempotent (s : AppState) (i : Nat) (lbl : String)
    (hi : i < s.jobs.length) (hlbl : lbl = "interview" ∨ lbl = "rejected") :
    updateJobStatus (updateJobStatus s i lbl) i lbl = updateJobStatus s i lbl := by
  have hget : s.jobs[i]? = some s.jobs[i] := List.getElem?_eq_getElem hi
  rw [updateJobStatus_eq s i lbl _ hget]
  have h1 : (updateUI { s with
        jobs := s.jobs.set i (applyStatus s.jobs[i] (newStatusOf lbl)) }).jobs[i]?
      = some (renderJob s.currentTab (applyStatus s.jobs[i] (newStatusOf lbl))) := by
    rw [updateUI_eq]
    show ((s.jobs.set i (applyStatus s.jobs[i] (newStatusOf lbl))).map
      (renderJob s.currentTab))[i]? = _
    rw [List.getElem?_map, getElem?_set_of_getElem? _ _ _ _ hget]
    rfl
  rw [updateJobStatus_eq _ i lbl _ h1, applyStatus_twice, set_getElem?_self _ i _ h1]
  exact updateUI_idem _

/-- Witness for C6 at a concrete state, index and label. -/
theorem updateJobStatus_idempotent_witness :
    0 < wState.jobs.length
    ∧ ("interview" = "interview" ∨ "interview" = "rejected")
    ∧ updateJobStatus (updateJobStatus wState 0 "interview") 0 "interview"
        = updateJobStatus wState 0 "interview" :=
  ⟨by decide, Or.inl rfl,
    updateJobStatus_idempotent wState 0 "interview" (by decide) (Or.inl rfl)⟩

/-- The badge-tolerance behaviour claimed by C7, at `s`, `i`, `lbl`,
record `job`. -/
def BadgeProp (s : AppState) (i : Nat) (lbl : String) (job : Job) : Prop :=
  ∃ job', (updateJobStatus s i lbl).jobs[i]? = some job'
    ∧ job'.status = newStatusOf lbl
    ∧ job'.element.datasetStatus = newStatusOf lbl
    ∧ (job.element.badge = none → job'.element.badge = none)
    ∧ job'.element.badge.isSome = job.element.badge.isSome

/-- C7:  On a valid index, `updateJobStatus` always updates the
record's status and the element's status tag and completes (the model is
a total function); when the badge button is absent it stays absent — only
the badge label/styling write is skipped — and when present it stays
present; no fault occurs in either case. -/
theorem updateJobStatus_badge_tolerant (s : AppState) (i : Nat) (lbl : String) (job : Job)
    (hget : s.jobs[i]? = some job) : BadgeProp s i lbl job := by
  have heq := updateJobStatus_eq s i lbl job hget
  refine ⟨renderJob s.currentTab (applyStatus job (newStatusOf lbl)), ?_, rfl, rfl, ?_, ?_⟩
  · rw [heq, updateUI_eq]
    show ((s.jobs.set i (applyStatus job (newStatusOf lbl))).map
      (renderJob s.currentTab))[i]? = _
    rw [List.getElem?_map, getElem?_set_of_getElem? _ _ _ _ hget]
    rfl
  · intro hb
    simp [applyStatus, renderJob, hb]
  · cases hb : job.element.badge <;> simp [applyStatus, renderJob, hb]

/-- Witness for C7 at a concrete record with no badge button. -/
theorem updateJobStatus_badge_tolerant_witness :
    wState.jobs[1]? = some wJobB ∧ BadgeProp wState 1 "rejected" wJobB :=
  ⟨rfl, updateJobStatus_badge_tolerant wState 1 "rejected" wJobB rfl⟩

/-- The dashboard displays of `s` show exactly the counts recomputed by a
full pass over the collection. -/
def DashboardProp (s : AppState) : Prop :=
  (∀ v, s.dashTotal = some v → v = toString s.jobs.length)
  ∧ (∀ v, s.dashInterview = some v → v = toString (countStatus s.jobs "Interview"))
  ∧ (∀ v, s.dashRejected = some v → v = toString (countStatus s.jobs "Rejected"))

/-- Display-element presence is unchanged from `s` to `t`: a missing
display element is skipped (never created, never a fault). -/
def DashFrame (s t : AppState) : Prop :=
  t.dashTotal.isSome = s.dashTotal.isSome
  ∧ t.dashInterview.isSome = s.dashInterview.isSome
  ∧ t.dashRejected.isSome = s.dashRejected.isSome

theorem isSome_map (x : Option String) (f : String → String) :
    (x.map f).isSome = x.isSome := by
  cases x <;> rfl

theorem dashboardProp_updateUI (X : AppState) : DashboardProp (updateUI X) := by
  refine ⟨?_, ?_, ?_⟩ <;> intro v hv <;> rw [updateUI_eq] at hv <;>
    simp only [Option.map_eq_some'] at hv <;>
    obtain ⟨w, hw, rfl⟩ := hv <;> rw [updateUI_eq] <;>
    simp [List.length_map, countStatus_map_renderJob]

/-- The property claimed by C8 at state `s`, index `i`, label `lbl`:
after either mutation the dashboard shows fully recomputed counts, and
missing display elements are skipped. -/
def MutationDashboardProp (s : AppState) (i : Nat) (lbl : String) : Prop :=
  DashboardProp (deleteJob s i)
  ∧ DashFrame s (deleteJob s i)
  ∧ DashboardProp (updateJobStatus s i lbl)
  ∧ DashFrame s (updateJobStatus s i lbl)

/-- C8:  After every data mutation on a valid index (deletion or
status transition) the displayed dashboard values equal the counts
recomputed by a full pass over the collection — `Total` the size,
`Interview`/`Rejected` the per-status tallies — and a missing display
element makes that write a skip, not a fault. -/
theorem dashboard_after_mutation (s : AppState) (i : Nat) (lbl : String) (job : Job)
    (hget : s.jobs[i]? = some job) : MutationDashboardProp s i lbl := by
  have hdel := deleteJob_eq s i job hget
  have hupd := updateJobStatus_eq s i lbl job hget
  refine ⟨?_, ?_, ?_, ?_⟩
  · rw [hdel]
    exact dashboardProp_updateUI _
  · rw [hdel, updateUI_eq]
    exact ⟨isSome_map .., isSome_map .., isSome_map ..⟩
  · rw [hupd]
    exact dashboardProp_updateUI _
  · rw [hupd, updateUI_eq]
    exact ⟨isSome_map .., isSome_map .., isSome_map ..⟩

/-- Witness for C8 at a concrete state, index and label. -/
theorem dashboard_after_mutation_witness :
    wState.jobs[0]? = some wJobA ∧ MutationDashboardProp wState 0 "interview" :=
  ⟨rfl, dashboard_after_mutation wState 0 "interview" wJobA rfl⟩

/-- The frame property claimed by C9 at state `s` and tab event `e`. -/
def TabClickProp (s : AppState) (e : TabClickEvent) : Prop :=
  (handleTabClick s e).currentTab = e.label.trim
  ∧ (handleTabClick s e).dashTotal = s.dashTotal
  ∧ (handleTabClick s e).dashInterview = s.dashInterview
  ∧ (handleTabClick s e).dashRejected = s.dashRejected
  ∧ (handleTabClick s e).jobs.map (fun j => j.status) = s.jobs.map (fun j => j.status)
  ∧ (handleTabClick s e).attachedIds = s.attachedIds
  ∧ ((e.label.trim = "All" ∨ e.label.trim = "Interview" ∨ e.label.trim = "Rejected") →
      ((handleTabClick s e).currentTab = "All"
        ∨ (handleTabClick s e).currentTab = "Interview"
        ∨ (handleTabClick s e).currentTab = "Rejected"))

/-- C9:  A valid tab click (a button target) sets the filter selection
to the clicked control's trimmed label — so, the markup's tab labels being
`All` / `Interview` / `Rejected`, the selection stays in that set — and
re-renders only the job list: the three dashboard displays, every record's
status, and the attached elements are unchanged. -/
theorem handleTabClick_frame (s : AppState) (e : TabClickEvent)
    (hb : e.isButton = true) : TabClickProp s e := by
  unfold TabClickProp handleTabClick
  simp [hb, renderJobs_eq, statuses_map_renderJob]

/-- A click on the "Interview" tab button. -/
def wTabEvent : TabClickEvent := { isButton := true, label := "Interview" }

/-- Witness for C9 at a concrete state and tab event. -/
theorem handleTabClick_frame_witness :
    wTabEvent.isButton = true ∧ TabClickProp wState wTabEvent :=
  ⟨rfl, handleTabClick_frame wState wTabEvent rfl⟩

/-- The label classification claimed by C10 at `s`, `i`, `lbl`. -/
def LabelClassProp (s : AppState) (i : Nat) (lbl : String) : Prop :=
  (∀ job', (updateJobStatus s i lbl).jobs[i]? = some job' →
      (job'.status = "Interview" ↔ lbl = "interview")
      ∧ (lbl ≠ "interview" → job'.status = "Rejected")
      ∧ job'.status ≠ "none")
  ∧ ((∀ j ∈ s.jobs, j.status = "none" ∨ j.status = "Interview" ∨ j.status = "Rejected") →
      ∀ j ∈ (updateJobStatus s i lbl).jobs,
        j.status = "none" ∨ j.status = "Interview" ∨ j.status = "Rejected")

/-- C10:  `updateJobStatus(i, lbl)` sets record `i`'s status to
`Interview` exactly when `lbl` is the string `"interview"` and to
`Rejected` for every other label; the status never remains `none` after a
call, and statuses stay within `{none, Interview, Rejected}`. -/
theorem updateJobStatus_label_class (s : AppState) (i : Nat) (lbl : String) (job : Job)
    (hget : s.jobs[i]? = some job) : LabelClassProp s i lbl := by
  have heq := updateJobStatus_eq s i lbl job hget
  have hj : (updateJobStatus s i lbl).jobs[i]?
      = some (renderJob s.currentTab (applyStatus job (newStatusOf lbl))) := by
    rw [heq, updateUI_eq]
    show ((s.jobs.set i (applyStatus job (newStatusOf lbl))).map
      (renderJob s.currentTab))[i]? = _
    rw [List.getElem?_map, getElem?_set_of_getElem? _ _ _ _ hget]
    rfl
  constructor
  · intro job' h
    rw [hj] at h
    obtain rfl : renderJob s.currentTab (applyStatus job (newStatusOf lbl)) = job' :=
      Option.some.inj h
    by_cases hl : lbl = "interview" <;> simp [newStatusOf, hl]
  · intro hall j hmem
    rw [heq, updateUI_eq] at hmem
    obtain ⟨x, hx, rfl⟩ := List.mem_map.mp hmem
    rw [renderJob_status]
    rcases List.mem_or_eq_of_mem_set hx with hxl | rfl
    · exact hall x hxl
    · by_cases hl : lbl = "interview" <;> simp [newStatusOf, hl]

/-- Witness for C10: an uppercase label `"Interview"` is not the string
`"interview"`, so it yields status `Rejected`. -/
theorem updateJobStatus_label_class_witness :
    wState.jobs[0]? = some wJobA ∧ LabelClassProp wState 0 "Interview" :=
  ⟨rfl, updateJobStatus_label_class wState 0 "Interview" wJobA rfl⟩

end JobTracker
